import Mathlib

/-!
# Session store over a JetStream key-value bucket

A shallow embedding of `pkg/natsstore/natsstore.go` (`NewStore`, `New`, `Save`, `Load`,
`generateSessionID`) and the properties of the session lifecycle proved about it.

Modelling conventions.

* The Go heap is explicit only where aliasing is observable in the source: a
  `*sessions.Options` is an address into `World.heap`.  A `*sessions.Session` is
  threaded by value: every operation returns the record it leaves behind.
* The libraries the source calls are collaborators.  The key-value service is a
  reference model (buckets of key/value entries) under a fault oracle that may
  fail any call in any state, with a trace of the calls made.  The cookie codec
  (`securecookie.EncodeMulti`, `securecookie.DecodeMulti`), `json.Marshal`,
  `json.Unmarshal`, `sha256.Sum256` and `uuid.New` are parameters (`Env`).
* `http.SetCookie(w, c)` appends `c` to the response writer, which is the list
  of cookies handed to the cookie-writing side.
* A Go map is an association list read with `mapGet`; Go maps have distinct
  keys, which is the predicate `keysDistinct`.
-/

namespace NatsStore

/-! ## Go values -/

/-- Go `error` values, carried by their message. -/
abbrev Error := String

/-- Go `[]byte`. -/
abbrev Bytes := String

/-- Keys of a `map[interface{}]interface{}` (comparable dynamic values). -/
inductive GoKey where
  | str (s : String)
  | int (n : Int)
  | bool (b : Bool)
  deriving DecidableEq, Repr

/-- Dynamic values of type `interface{}`: what a handler stores in
`session.Values` and what `json.Unmarshal` produces for an `interface{}`
target (`nil`, `bool`, `float64`, `string`, `[]interface{}`,
`map[string]interface{}`), plus Go integers. -/
inductive GoValue where
  | null
  | bool (b : Bool)
  | int (n : Int)
  | float64 (bits : Nat)
  | str (s : String)
  | slice (xs : List GoValue)
  | object (kvs : List (String × GoValue))

/-- Map read `m[k]` with the `ok` flag: the first binding of `k`. -/
def mapGet {K V : Type} [DecidableEq K] : List (K × V) → K → Option V
  | [], _ => none
  | (k', v) :: m, k => if k' = k then some v else mapGet m k

/-- Map write `m[k] = v`: overwrite the binding of `k`, or add one. -/
def mapSet {K V : Type} [DecidableEq K] : List (K × V) → K → V → List (K × V)
  | [], k, v => [(k, v)]
  | (k', v') :: m, k, v => if k' = k then (k, v) :: m else (k', v') :: mapSet m k v

/-- Map delete `delete(m, k)`. -/
def mapDelete {K V : Type} [DecidableEq K] : List (K × V) → K → List (K × V)
  | [], _ => []
  | (k', v') :: m, k => if k' = k then mapDelete m k else (k', v') :: mapDelete m k

/-- The keys of a Go map are pairwise distinct. -/
def keysDistinct {K V : Type} (m : List (K × V)) : Prop := (m.map Prod.fst).Nodup

instance keysDistinctDecidable {K V : Type} [DecidableEq K] (m : List (K × V)) :
    Decidable (keysDistinct m) :=
  inferInstanceAs (Decidable (m.map Prod.fst).Nodup)

/-! ## gorilla/sessions data -/

/-- The struct `sessions.Options`. -/
structure Options where
  Path : String
  Domain : String
  MaxAge : Int
  Secure : Bool
  HttpOnly : Bool
  deriving DecidableEq, Repr

/-- The struct `sessions.Session`; `Options` is a pointer (an address into
`World.heap`, an address outside the heap standing for `nil`), `name` is the
private field read by `session.Name()`. -/
structure Session where
  ID : String
  Values : List (GoKey × GoValue)
  Options : Nat
  IsNew : Bool
  name : String

/-- The `*http.Cookie` built by `sessions.NewCookie(name, value, options)`:
the name, the value and the option fields copied out of `options` (the
`Expires` stamp it derives from `MaxAge` and the clock is not kept). -/
structure Cookie where
  Name : String
  Value : String
  Path : String
  Domain : String
  MaxAge : Int
  Secure : Bool
  HttpOnly : Bool
  deriving DecidableEq, Repr

/-- The call `sessions.NewCookie(name, value, options)`. -/
def NewCookie (name value : String) (options : Options) : Cookie :=
  { Name := name, Value := value, Path := options.Path, Domain := options.Domain,
    MaxAge := options.MaxAge, Secure := options.Secure, HttpOnly := options.HttpOnly }

/-- An inbound `*http.Request`, by the cookies it carries (name, value). -/
structure Request where
  cookies : List (String × String)
  deriving DecidableEq, Repr

/-- The call `r.Cookie(name)`: value of the first cookie of that name, `none`
for `http.ErrNoCookie`. -/
def Request.Cookie (r : Request) (name : String) : Option String :=
  mapGet r.cookies name

/-- A `securecookie.Codec` made by `securecookie.New(hashKey, blockKey)`. -/
structure Codec where
  hashKey : Bytes
  blockKey : Option Bytes
  deriving DecidableEq, Repr

/-- The call `securecookie.CodecsFromPairs(keyPairs...)`: consecutive keys
pair up as (hash key, block key); a trailing single key has no block key. -/
def CodecsFromPairs : List Bytes → List Codec
  | [] => []
  | [h] => [⟨h, none⟩]
  | h :: b :: rest => ⟨h, some b⟩ :: CodecsFromPairs rest

/-! ## The key-value service -/

/-- Calls the store makes on the JetStream key-value service. -/
inductive KVCall where
  | keyValue (bucket : String)
  | createKeyValue (bucket : String)
  | get (bucket key : String)
  | put (bucket key : String) (value : Bytes)
  | delete (bucket key : String)
  deriving DecidableEq, Repr

/-- One entry of the call trace: the call and the error it returned. -/
structure KVEvent where
  call : KVCall
  err : Option Error
  deriving DecidableEq, Repr

/-- The service: its buckets and the trace of calls made so far. -/
structure JetStream where
  buckets : List (String × List (String × Bytes))
  trace : List KVEvent
  deriving DecidableEq, Repr

/-- What the libraries do, as far as the store's code depends on it. -/
structure Env where
  /-- The error, if any, the service reports for a call made in a given state
  of its buckets and call trace (connectivity, timeouts, rejected keys, ...). -/
  fault : JetStream → KVCall → Option Error
  /-- The string of the n-th `uuid.New()`. -/
  uuid : Nat → String
  /-- The digest `sha256.Sum256(key)`. -/
  sha256 : Bytes → Bytes
  /-- `securecookie.EncodeMulti(name, value, codecs...)`. -/
  EncodeMulti : String → String → List Codec → Except Error String
  /-- `securecookie.DecodeMulti(name, value, &dst, codecs...)` for a string
  destination: the decoded string, or the error (destination not written). -/
  DecodeMulti : String → String → List Codec → Except Error String
  /-- `json.Marshal` of a `map[string]string`. -/
  jsonMarshal : List (String × String) → Except Error Bytes
  /-- `json.Unmarshal` into a nil `map[string]interface{}`: the decoded map
  or the error. For the JSON literal `null` the Go decoder returns no error
  and leaves the map nil, which ranges as the empty map. -/
  jsonUnmarshal : Bytes → Except Error (List (String × GoValue))

/-- Append a call and its outcome to the trace. -/
def JetStream.record (js : JetStream) (c : KVCall) (e : Option Error) : JetStream :=
  { js with trace := js.trace ++ [⟨c, e⟩] }

/-- The call `js.KeyValue(bucket)`: the bucket handle, or an error when the
call faults or the bucket does not exist. -/
def JetStream.KeyValue (env : Env) (js : JetStream) (bucket : String) :
    Option Error × JetStream :=
  let e : Option Error :=
    match env.fault js (.keyValue bucket) with
    | some e => some e
    | none =>
      match mapGet js.buckets bucket with
      | some _ => none
      | none => some "nats: bucket not found"
  (e, js.record (.keyValue bucket) e)

/-- The call `js.CreateKeyValue(&nats.KeyValueConfig{Bucket: bucket})`. -/
def JetStream.CreateKeyValue (env : Env) (js : JetStream) (bucket : String) :
    Option Error × JetStream :=
  match env.fault js (.createKeyValue bucket) with
  | some e => (some e, js.record (.createKeyValue bucket) (some e))
  | none =>
    match mapGet js.buckets bucket with
    | some _ => (none, js.record (.createKeyValue bucket) none)
    | none =>
      (none, { (js.record (.createKeyValue bucket) none) with
                buckets := mapSet js.buckets bucket [] })

/-- The call `kv.Get(key)` on the handle of `bucket`. -/
def JetStream.Get (env : Env) (js : JetStream) (bucket key : String) :
    Except Error Bytes × JetStream :=
  let r : Except Error Bytes :=
    match env.fault js (.get bucket key) with
    | some e => .error e
    | none =>
      match mapGet js.buckets bucket with
      | none => .error "nats: bucket not found"
      | some kv =>
        match mapGet kv key with
        | none => .error "nats: key not found"
        | some data => .ok data
  (r, js.record (.get bucket key) (match r with | .error e => some e | .ok _ => none))

/-- The call `kv.Put(key, value)` on the handle of `bucket`. -/
def JetStream.Put (env : Env) (js : JetStream) (bucket key : String) (value : Bytes) :
    Option Error × JetStream :=
  match env.fault js (.put bucket key value) with
  | some e => (some e, js.record (.put bucket key value) (some e))
  | none =>
    match mapGet js.buckets bucket with
    | none => (some "nats: bucket not found",
               js.record (.put bucket key value) (some "nats: bucket not found"))
    | some kv =>
      (none, { (js.record (.put bucket key value) none) with
                buckets := mapSet js.buckets bucket (mapSet kv key value) })

/-- The call `kv.Delete(key)` on the handle of `bucket`; deleting a key that
has no entry succeeds. -/
def JetStream.Delete (env : Env) (js : JetStream) (bucket key : String) :
    Option Error × JetStream :=
  match env.fault js (.delete bucket key) with
  | some e => (some e, js.record (.delete bucket key) (some e))
  | none =>
    match mapGet js.buckets bucket with
    | none => (some "nats: bucket not found",
               js.record (.delete bucket key) (some "nats: bucket not found"))
    | some kv =>
      (none, { (js.record (.delete bucket key) none) with
                buckets := mapSet js.buckets bucket (mapDelete kv key) })

/-- The entry stored under `key` in `bucket`, if any. -/
def JetStream.entry (js : JetStream) (bucket key : String) : Option Bytes :=
  match mapGet js.buckets bucket with
  | none => none
  | some kv => mapGet kv key

/-! ## The store -/

/-- Everything the program can change: the `sessions.Options` objects on the
heap, the key-value service, and how many identifiers were drawn. -/
structure World where
  heap : List Options
  js : JetStream
  uuids : Nat
  deriving DecidableEq, Repr

/-- The struct `NATSSessionStore`; `js` is the handle on `World.js`,
`defaultOptions` is a pointer. -/
structure NATSSessionStore where
  keyPrefix : String
  defaultOptions : Nat
  Codecs : List Codec
  deriving DecidableEq, Repr

/-- How a call ends: `return nil`, `return err`, or a run-time panic. -/
inductive Ret where
  | nil
  | error (e : Error)
  | panic (msg : String)
  deriving DecidableEq, Repr

/-- The bucket of a store: `s.keyPrefix + "_sessions"`. -/
def NATSSessionStore.bucket (s : NATSSessionStore) : String :=
  s.keyPrefix ++ "_sessions"

/-- The function `NewStore(js, keyPrefix, keyPairs...)`. -/
def NewStore (env : Env) (σ : World) (keyPrefix : String) (keyPairs : List Bytes) :
    Except Error NATSSessionStore × World :=
  let hashes := keyPairs.map env.sha256
  let store : NATSSessionStore :=
    { keyPrefix := keyPrefix, defaultOptions := σ.heap.length,
      Codecs := CodecsFromPairs hashes }
  let alloc (js : JetStream) : World :=
    { σ with js := js, heap := σ.heap ++ [{ Path := "/", Domain := "", MaxAge := 86400 * 30,
                                            Secure := false, HttpOnly := false }] }
  match JetStream.KeyValue env σ.js (keyPrefix ++ "_sessions") with
  | (none, js1) => (.ok store, alloc js1)
  | (some _, js1) =>
    match JetStream.CreateKeyValue env js1 (keyPrefix ++ "_sessions") with
    | (some e, js2) => (.error e, { σ with js := js2 })
    | (none, js2) => (.ok store, alloc js2)

/-- The function `generateSessionID()`: the string of a new UUID. -/
def generateSessionID (env : Env) (σ : World) : String × World :=
  (env.uuid σ.uuids, { σ with uuids := σ.uuids + 1 })

/-- What `Load` leaves behind. -/
structure LoadResult where
  err : Option Error
  session : Session
  world : World

/-- The loop `for k, v := range values { session.Values[k] = v }`. -/
def mergeValues (dst : List (GoKey × GoValue)) :
    List (String × GoValue) → List (GoKey × GoValue)
  | [] => dst
  | (k, v) :: rest => mergeValues (mapSet dst (.str k) v) rest

/-- The method `(*NATSSessionStore).Load`. -/
def Load (env : Env) (s : NATSSessionStore) (σ : World) (session : Session) : LoadResult :=
  match JetStream.KeyValue env σ.js (s.keyPrefix ++ "_sessions") with
  | (some e, js1) => ⟨some e, session, { σ with js := js1 }⟩
  | (none, js1) =>
    match JetStream.Get env js1 (s.keyPrefix ++ "_sessions") session.ID with
    | (.error e, js2) => ⟨some e, session, { σ with js := js2 }⟩
    | (.ok data, js2) =>
      match env.jsonUnmarshal data with
      | .error e => ⟨some e, session, { σ with js := js2 }⟩
      | .ok values =>
        ⟨none, { session with Values := mergeValues session.Values values },
          { σ with js := js2 }⟩

/-- What `New` returns and leaves behind. -/
structure NewResult where
  session : Session
  err : Option Error
  world : World

/-- The record after `sessions.NewSession(s, name)`, `session.Options =
s.defaultOptions` and `session.IsNew = true`. -/
def NewSession (s : NATSSessionStore) (name : String) : Session :=
  { ID := "", Values := [], Options := s.defaultOptions, IsNew := true, name := name }

/-- The method `(*NATSSessionStore).New`. -/
def New (env : Env) (s : NATSSessionStore) (σ : World) (r : Request) (name : String) :
    NewResult :=
  let session := NewSession s name
  match r.Cookie name with
  | none => ⟨session, none, σ⟩
  | some c =>
    match env.DecodeMulti name c s.Codecs with
    | .error _ => ⟨session, none, σ⟩
    | .ok id =>
      let l := Load env s σ { session with ID := id }
      match l.err with
      | none => ⟨{ l.session with IsNew := false }, none, l.world⟩
      | some _ => ⟨l.session, none, l.world⟩

/-- What `Save` leaves behind: how it ended, the record, the world and the
cookies handed to `http.SetCookie` on the response writer. -/
structure SaveResult where
  ret : Ret
  session : Session
  world : World
  w : List Cookie

/-- The loop of `Save` that fills `values` (a `map[string]string`) from
`session.Values`: an entry whose key is not a string is skipped, a string key
stores `v.(string)`, and that type assertion panics (`none`) when the value
is not a string. -/
def collectValues (values : List (String × String)) :
    List (GoKey × GoValue) → Option (List (String × String))
  | [] => some values
  | (.str key, .str v) :: rest => collectValues (mapSet values key v) rest
  | (.str _, _) :: _ => none
  | (_, _) :: rest => collectValues values rest

/-- The method `(*NATSSessionStore).Save`. -/
def Save (env : Env) (s : NATSSessionStore) (σ : World) (w : List Cookie)
    (session : Session) : SaveResult :=
  match σ.heap.get? session.Options with
  | none => ⟨.panic "invalid memory address or nil pointer dereference", session, σ, w⟩
  | some options =>
    if options.MaxAge ≤ 0 then
      match JetStream.KeyValue env σ.js (s.keyPrefix ++ "_sessions") with
      | (some e, js1) => ⟨.error e, session, { σ with js := js1 }, w⟩
      | (none, js1) =>
        match JetStream.Delete env js1 (s.keyPrefix ++ "_sessions") session.ID with
        | (some e, js2) => ⟨.error e, session, { σ with js := js2 }, w⟩
        | (none, js2) =>
          ⟨.nil, session, { σ with js := js2 }, w ++ [NewCookie session.name "" options]⟩
    else
      let (id, σ0) := if session.ID = "" then generateSessionID env σ else (session.ID, σ)
      let session1 := { session with ID := id }
      match JetStream.KeyValue env σ0.js (s.keyPrefix ++ "_sessions") with
      | (some e, js1) => ⟨.error e, session1, { σ0 with js := js1 }, w⟩
      | (none, js1) =>
        match collectValues [] session1.Values with
        | none =>
          ⟨.panic "interface conversion: interface {} is not string", session1,
            { σ0 with js := js1 }, w⟩
        | some values =>
          match env.jsonMarshal values with
          | .error e => ⟨.error e, session1, { σ0 with js := js1 }, w⟩
          | .ok encoded =>
            match JetStream.Put env js1 (s.keyPrefix ++ "_sessions") session1.ID encoded with
            | (some e, js2) => ⟨.error e, session1, { σ0 with js := js2 }, w⟩
            | (none, js2) =>
              match env.EncodeMulti session1.name session1.ID s.Codecs with
              | .error e => ⟨.error e, session1, { σ0 with js := js2 }, w⟩
              | .ok encodedValue =>
                ⟨.nil, session1, { σ0 with js := js2 },
                  w ++ [NewCookie session1.name encodedValue options]⟩

/-- The handler statement `session.Options.MaxAge = v`: a write through the
record's `Options` pointer. -/
def setMaxAge (σ : World) (session : Session) (v : Int) : World :=
  match σ.heap.get? session.Options with
  | none => σ
  | some o => { σ with heap := σ.heap.set session.Options { o with MaxAge := v } }

/-- The expiry policy of a record: `session.Options.MaxAge`. -/
def maxAge (σ : World) (session : Session) : Option Int :=
  (σ.heap.get? session.Options).map (·.MaxAge)

/-! ## Vocabulary of the properties -/

/-- The call is a `kv.Put`. -/
def KVCall.isPut : KVCall → Bool
  | .put _ _ _ => true
  | _ => false

/-- The traced call is a `kv.Put` that returned an error. -/
def failedPut (ev : KVEvent) : Bool :=
  ev.call.isPut && ev.err.isSome

/-- The `kv.Put` calls of a trace. -/
def putsOf (trace : List KVEvent) : List KVEvent :=
  trace.filter (fun ev => ev.call.isPut)

/-- Contract of the cookie codec (spec, round-trip property): a token sealed
for a name and identifier unseals, under the same name and codecs, to that
identifier. -/
def Env.codecRoundTrip (env : Env) : Prop :=
  ∀ name id codecs token,
    env.EncodeMulti name id codecs = .ok token → env.DecodeMulti name token codecs = .ok id

/-- Contract of the JSON library on a `map[string]string`: what `json.Marshal`
writes, `json.Unmarshal` reads back as a map with the same keys, each bound
to the same string. -/
def Env.jsonRoundTrip (env : Env) : Prop :=
  ∀ m data, keysDistinct m → env.jsonMarshal m = .ok data →
    ∃ values, env.jsonUnmarshal data = .ok values ∧ keysDistinct values ∧
      ∀ k, mapGet values k = (mapGet m k).map GoValue.str

/-- A working backend: the service fails no call. -/
def Env.noFaults (env : Env) : Prop :=
  ∀ js c, env.fault js c = none

/-! ## Concrete collaborators, used to run the store on explicit inputs -/

/-- A toy seal: the identifier behind a fixed tag. -/
def demoEncode (_name value : String) (_ : List Codec) : Except Error String :=
  .ok ⟨'s' :: 'c' :: ':' :: value.data⟩

/-- The matching unseal: strips the tag, rejects a token without it. -/
def demoDecode (_name token : String) (_ : List Codec) : Except Error String :=
  match token.data with
  | 's' :: 'c' :: ':' :: rest => .ok ⟨rest⟩
  | _ => .error "securecookie: the value is not valid"

/-- A JSON encoder that knows two maps. -/
def demoMarshal (m : List (String × String)) : Except Error Bytes :=
  if m = [("cart", "3")] then .ok "\x7b\"cart\":\"3\"\x7d"
  else if m = [] then .ok "\x7b\x7d"
  else .error "json: unsupported value"

/-- The matching JSON decoder. -/
def demoUnmarshal (data : Bytes) : Except Error (List (String × GoValue)) :=
  if data = "\x7b\"cart\":\"3\"\x7d" then .ok [("cart", .str "3")]
  else if data = "\x7b\x7d" then .ok []
  else .error "json: cannot unmarshal"

/-- Collaborators over a service that never fails. -/
def demoEnv : Env :=
  { fault := fun _ _ => none
    uuid := fun _ => "u-1"
    sha256 := fun k => k
    EncodeMulti := demoEncode
    DecodeMulti := demoDecode
    jsonMarshal := demoMarshal
    jsonUnmarshal := demoUnmarshal }

/-- The same collaborators over a service on which every `kv.Put` times out. -/
def putFailsEnv : Env :=
  { demoEnv with
    fault := fun _ c => if c.isPut then some "nats: timeout" else none }

/-- One `sessions.Options` on the heap (30 days, path `/`), one empty bucket
`app_sessions`, no call made yet. -/
def demoWorld : World :=
  { heap := [{ Path := "/", Domain := "", MaxAge := 2592000, Secure := false,
               HttpOnly := false }]
    js := { buckets := [("app_sessions", [])], trace := [] }
    uuids := 0 }

/-- A store on bucket `app_sessions` whose default options are at address 0. -/
def demoStore : NATSSessionStore :=
  { keyPrefix := "app", defaultOptions := 0, Codecs := [] }

/-- A fresh record named `sid` with one string-keyed and one int-keyed entry. -/
def demoSession : Session :=
  { ID := "", Values := [(.str "cart", .str "3"), (.int 7, .bool true)], Options := 0,
    IsNew := true, name := "sid" }

/-- A world after a logout request was prepared: the options at address 0 have
`MaxAge = 0` and the bucket holds the session `u-1`. -/
def logoutWorld : World :=
  { heap := [{ Path := "/", Domain := "", MaxAge := 0, Secure := false, HttpOnly := false }]
    js := { buckets := [("app_sessions", [("u-1", "\x7b\"cart\":\"3\"\x7d")])], trace := [] }
    uuids := 1 }

/-- The loaded record of session `u-1`. -/
def logoutSession : Session :=
  { ID := "u-1", Values := [(.str "cart", .str "3")], Options := 0, IsNew := false,
    name := "sid" }

/-- A fresh record named `sid` whose string key `visits` holds a Go integer. -/
def numberSession : Session :=
  { ID := "", Values := [(.str "visits", .int 3)], Options := 0, IsNew := true, name := "sid" }

/-- A request presenting a cookie `sid` whose token unseals to `ghost`, an
identifier the bucket of `demoWorld` has no entry for. -/
def ghostRequest : Request := ⟨[("sid", "sc:ghost")]⟩

/-- A world whose bucket holds, under `u-2`, a payload that is not JSON. -/
def corruptWorld : World :=
  { heap := [{ Path := "/", Domain := "", MaxAge := 2592000, Secure := false,
               HttpOnly := false }]
    js := { buckets := [("app_sessions", [("u-2", "cart=3")])], trace := [] }
    uuids := 1 }

/-- A request presenting a cookie `sid` whose token unseals to `u-2`. -/
def corruptRequest : Request := ⟨[("sid", "sc:u-2")]⟩

/-- A world before any store was built: empty heap, no bucket. -/
def emptyWorld : World :=
  { heap := [], js := { buckets := [], trace := [] }, uuids := 0 }

/-- A request without cookies. -/
def plainRequest : Request := ⟨[]⟩

/-- The world left by `NewStore(js, "app")` run in `emptyWorld`. -/
def worldAfterNewStore : World := (NewStore demoEnv emptyWorld "app" []).2

/-- The first record `New` returns on that store. -/
def firstRecord : NewResult := New demoEnv demoStore worldAfterNewStore plainRequest "sid"

/-- The world after the handler of the first request ran
`session.Options.MaxAge = 0` on its record. -/
def worldAfterOverride : World := setMaxAge firstRecord.world firstRecord.session 0

/-- The record `New` returns to a later request on the same store. -/
def laterRecord : NewResult := New demoEnv demoStore worldAfterOverride plainRequest "sid"

/-- The collaborators of `demoEnv` with a JSON decoder that, as Go's does for
a map target, takes the literal `null` without error and decodes nothing. -/
def nullEnv : Env :=
  { demoEnv with
    jsonUnmarshal := fun data => if data = "null" then .ok [] else demoUnmarshal data }

/-- A world whose bucket holds, under `u-3`, the payload `null`: valid JSON
that is not a JSON object. -/
def nullWorld : World :=
  { heap := [{ Path := "/", Domain := "", MaxAge := 2592000, Secure := false,
               HttpOnly := false }]
    js := { buckets := [("app_sessions", [("u-3", "null")])], trace := [] }
    uuids := 1 }

/-- A request presenting a cookie `sid` whose token unseals to `u-3`. -/
def nullRequest : Request := ⟨[("sid", "sc:u-3")]⟩

/-! ## Go maps -/

section Maps
variable {K V : Type} [DecidableEq K]

theorem mapGet_mapSet_self (m : List (K × V)) (k : K) (v : V) :
    mapGet (mapSet m k v) k = some v := by
  induction m with
  | nil => simp [mapSet, mapGet]
  | cons e m ih =>
    obtain ⟨k', v'⟩ := e
    by_cases h : k' = k <;> simp [mapSet, mapGet, h, ih]

theorem mapGet_mapSet_ne (m : List (K × V)) {k k' : K} (v : V) (h : k ≠ k') :
    mapGet (mapSet m k v) k' = mapGet m k' := by
  induction m with
  | nil => simp [mapSet, mapGet, h]
  | cons e m ih =>
    obtain ⟨k₀, v₀⟩ := e
    simp only [mapSet, mapGet]
    split_ifs <;> simp_all [mapGet]

theorem mapGet_mapSet (m : List (K × V)) (k k' : K) (v : V) :
    mapGet (mapSet m k v) k' = if k = k' then some v else mapGet m k' := by
  by_cases h : k = k'
  · subst h; simp [mapGet_mapSet_self]
  · simp [h, mapGet_mapSet_ne m v h]

theorem mapSet_mapSet (m : List (K × V)) (k : K) (v v' : V) :
    mapSet (mapSet m k v) k v' = mapSet m k v' := by
  induction m with
  | nil => simp [mapSet]
  | cons e m ih =>
    obtain ⟨k₀, v₀⟩ := e
    by_cases h₀ : k₀ = k <;> simp [mapSet, h₀, ih]

theorem mapGet_mapDelete (m : List (K × V)) (k k' : K) :
    mapGet (mapDelete m k) k' = if k = k' then none else mapGet m k' := by
  induction m with
  | nil => simp [mapDelete, mapGet]
  | cons e m ih =>
    obtain ⟨k₀, v₀⟩ := e
    simp only [mapDelete, mapGet]
    split_ifs <;> simp_all [mapGet]

theorem mapDelete_mapDelete (m : List (K × V)) (k : K) :
    mapDelete (mapDelete m k) k = mapDelete m k := by
  induction m with
  | nil => simp [mapDelete]
  | cons e m ih =>
    obtain ⟨k₀, v₀⟩ := e
    by_cases h₀ : k₀ = k <;> simp [mapDelete, h₀, ih]

theorem mapGet_eq_none_of_not_mem (m : List (K × V)) (k : K) (h : k ∉ m.map Prod.fst) :
    mapGet m k = none := by
  induction m with
  | nil => simp [mapGet]
  | cons e m ih =>
    obtain ⟨k₀, v₀⟩ := e
    simp at h
    have h₀ : ¬ k₀ = k := fun hh => h.1 hh.symm
    simp only [mapGet, h₀, if_false]
    exact ih (by simpa using h.2)

end Maps

/-! ## The key-value service -/

theorem KeyValue_trace (env : Env) (js : JetStream) (b : String) :
    (JetStream.KeyValue env js b).2.trace =
      js.trace ++ [⟨.keyValue b, (JetStream.KeyValue env js b).1⟩] := by
  simp [JetStream.KeyValue, JetStream.record]

theorem KeyValue_buckets (env : Env) (js : JetStream) (b : String) :
    (JetStream.KeyValue env js b).2.buckets = js.buckets := by
  simp [JetStream.KeyValue, JetStream.record]

theorem KeyValue_ok_of (env : Env) (js : JetStream) (b : String)
    (hf : env.fault js (.keyValue b) = none) {kv : List (String × Bytes)}
    (hb : mapGet js.buckets b = some kv) :
    (JetStream.KeyValue env js b).1 = none := by
  simp [JetStream.KeyValue, hf, hb]

theorem Put_trace (env : Env) (js : JetStream) (b k : String) (v : Bytes) :
    (JetStream.Put env js b k v).2.trace =
      js.trace ++ [⟨.put b k v, (JetStream.Put env js b k v).1⟩] := by
  unfold JetStream.Put
  repeat' split
  all_goals simp [JetStream.record]

theorem Put_ok (env : Env) (js : JetStream) (b k : String) (v : Bytes)
    (h : (JetStream.Put env js b k v).1 = none) :
    ∃ kv, mapGet js.buckets b = some kv ∧
      (JetStream.Put env js b k v).2.buckets = mapSet js.buckets b (mapSet kv k v) := by
  revert h
  unfold JetStream.Put
  repeat' split
  all_goals simp_all [JetStream.record]

theorem Delete_trace (env : Env) (js : JetStream) (b k : String) :
    (JetStream.Delete env js b k).2.trace =
      js.trace ++ [⟨.delete b k, (JetStream.Delete env js b k).1⟩] := by
  unfold JetStream.Delete
  repeat' split
  all_goals simp [JetStream.record]

theorem Delete_ok (env : Env) (js : JetStream) (b k : String)
    (h : (JetStream.Delete env js b k).1 = none) :
    ∃ kv, mapGet js.buckets b = some kv ∧
      (JetStream.Delete env js b k).2.buckets = mapSet js.buckets b (mapDelete kv k) := by
  revert h
  unfold JetStream.Delete
  repeat' split
  all_goals simp_all [JetStream.record]

theorem Delete_ok_of (env : Env) (js : JetStream) (b k : String)
    (hf : env.fault js (.delete b k) = none) {kv : List (String × Bytes)}
    (hb : mapGet js.buckets b = some kv) :
    (JetStream.Delete env js b k).1 = none := by
  simp [JetStream.Delete, hf, hb]

theorem Get_buckets (env : Env) (js : JetStream) (b k : String) :
    (JetStream.Get env js b k).2.buckets = js.buckets := by
  simp [JetStream.Get, JetStream.record]

theorem Get_ok (env : Env) (js : JetStream) (b k : String) (data : Bytes)
    (h : (JetStream.Get env js b k).1 = .ok data) :
    js.entry b k = some data := by
  revert h
  unfold JetStream.Get JetStream.entry
  dsimp only
  repeat' split
  all_goals simp_all

theorem Get_ok_of (env : Env) (js : JetStream) (b k : String) (data : Bytes)
    (hf : env.fault js (.get b k) = none) (h : js.entry b k = some data) :
    (JetStream.Get env js b k).1 = .ok data := by
  revert h
  unfold JetStream.Get JetStream.entry
  dsimp only
  repeat' split
  all_goals simp_all

theorem ite_generate_js (env : Env) (σ : World) (c : Prop) [Decidable c] (x : String) :
    (if c then generateSessionID env σ else (x, σ)).2.js = σ.js := by
  split <;> rfl

theorem ite_generate_heap (env : Env) (σ : World) (c : Prop) [Decidable c] (x : String) :
    (if c then generateSessionID env σ else (x, σ)).2.heap = σ.heap := by
  split <;> rfl

/-! ## Save -/

theorem Save_ret_or_w (env : Env) (s : NATSSessionStore) (σ : World) (w : List Cookie)
    (session : Session) :
    (Save env s σ w session).ret = .nil ∨ (Save env s σ w session).w = w := by
  unfold Save
  repeat' (first | split | dsimp only)
  all_goals simp

theorem Save_nil_trace (env : Env) (s : NATSSessionStore) (σ : World) (w : List Cookie)
    (session : Session) (h : (Save env s σ w session).ret = .nil) :
    ∀ ev ∈ (Save env s σ w session).world.js.trace.drop σ.js.trace.length,
      ev.err = none := by
  revert h
  unfold Save
  repeat' (first | split | dsimp only)
  all_goals try simp only [Prod.ext_iff] at *
  all_goals try casesm* _ ∧ _
  all_goals subst_vars
  all_goals simp_all [KeyValue_trace, Put_trace, Delete_trace, ite_generate_js]

/-- C1 (no partial persistence). Whenever `Save` does not return nil (it
returns an error from the bucket lookup, the delete, the JSON encoding, the put
or the seal, or it panics), the response writer is as it was: no cookie was
handed to `http.SetCookie`. In particular, when a `kv.Put` made by this `Save`
failed, the cookie-writing side was not called. -/
theorem Save_error_writes_no_cookie (env : Env) (s : NATSSessionStore) (σ : World)
    (w : List Cookie) (session : Session) :
    ((Save env s σ w session).ret ≠ .nil → (Save env s σ w session).w = w) ∧
    (∀ e, (Save env s σ w session).ret = .error e → (Save env s σ w session).w = w) ∧
    ((∃ ev ∈ (Save env s σ w session).world.js.trace.drop σ.js.trace.length,
        failedPut ev = true) → (Save env s σ w session).w = w) := by
  have h := Save_ret_or_w env s σ w session
  refine ⟨fun hne => h.resolve_left hne, fun e he => h.resolve_left (by simp [he]), ?_⟩
  rintro ⟨ev, hev, hf⟩
  refine h.resolve_left fun hnil => ?_
  have := Save_nil_trace env s σ w session hnil ev hev
  simp [failedPut, this] at hf

/-- Witness for C1: on a service whose put times out, `Save` of a fresh record
returns the timeout, makes the failing put, and writes no cookie. -/
theorem Save_error_writes_no_cookie_witness :
    (Save putFailsEnv demoStore demoWorld [] demoSession).ret = .error "nats: timeout" ∧
    (∃ ev ∈ (Save putFailsEnv demoStore demoWorld [] demoSession).world.js.trace.drop
        demoWorld.js.trace.length, failedPut ev = true) ∧
    (Save putFailsEnv demoStore demoWorld [] demoSession).w = [] :=
  ⟨by decide, by decide,
    (Save_error_writes_no_cookie putFailsEnv demoStore demoWorld [] demoSession).2.1
      "nats: timeout" (by decide)⟩

/-! ## New and Load -/

theorem Load_session_fields (env : Env) (s : NATSSessionStore) (σ : World) (session : Session) :
    (Load env s σ session).session.ID = session.ID ∧
    (Load env s σ session).session.IsNew = session.IsNew ∧
    (Load env s σ session).session.Options = session.Options ∧
    (Load env s σ session).session.name = session.name := by
  unfold Load
  repeat' (first | split | dsimp only)
  all_goals simp

theorem Load_error_session (env : Env) (s : NATSSessionStore) (σ : World) (session : Session)
    (h : (Load env s σ session).err ≠ none) :
    (Load env s σ session).session = session := by
  revert h
  unfold Load
  repeat' (first | split | dsimp only)
  all_goals simp

/-- C2 (New never reports an error). `New` returns a record and a nil error,
and the record has `IsNew = false` exactly when the request carries a cookie
of the session name, `DecodeMulti` unseals its value to an identifier, and
`Load` of the record with that identifier returns nil; otherwise `IsNew` is
true. -/
theorem New_never_errors (env : Env) (s : NATSSessionStore) (σ : World) (r : Request)
    (name : String) :
    (New env s σ r name).err = none ∧
    ((New env s σ r name).session.IsNew = false ↔
      ∃ c id, r.Cookie name = some c ∧ env.DecodeMulti name c s.Codecs = .ok id ∧
        (Load env s σ { NewSession s name with ID := id }).err = none) ∧
    ((New env s σ r name).session.IsNew = true ↔
      ¬ ∃ c id, r.Cookie name = some c ∧ env.DecodeMulti name c s.Codecs = .ok id ∧
        (Load env s σ { NewSession s name with ID := id }).err = none) := by
  have key : (New env s σ r name).err = none ∧
      ((New env s σ r name).session.IsNew = false ↔
        ∃ c id, r.Cookie name = some c ∧ env.DecodeMulti name c s.Codecs = .ok id ∧
          (Load env s σ { NewSession s name with ID := id }).err = none) := by
    unfold New
    dsimp only
    cases hc : r.Cookie name with
    | none => simp [NewSession]
    | some c =>
      dsimp only
      cases hd : env.DecodeMulti name c s.Codecs with
      | error e => simp [NewSession, hd]
      | ok id =>
        dsimp only
        cases hl : (Load env s σ { NewSession s name with ID := id }).err with
        | none => simp [hd, hl]
        | some e =>
          have hf := (Load_session_fields env s σ { NewSession s name with ID := id }).2.1
          simp only [NewSession] at hl hf ⊢
          simp only [hl, hf, hd]
          simp only [Bool.true_eq_false, false_iff, not_exists, not_and]
          refine ⟨trivial, ?_⟩
          intro c' id' hc' hd'
          cases hc'
          rw [hd] at hd'
          cases hd'
          simp [hl]
  refine ⟨key.1, key.2, ?_⟩
  rw [← key.2]
  cases (New env s σ r name).session.IsNew <;> simp

/-! ## The delete path of Save -/

theorem KeyValue_entry (env : Env) (js : JetStream) (b b' k : String) :
    (JetStream.KeyValue env js b).2.entry b' k = js.entry b' k := by
  simp [JetStream.entry, KeyValue_buckets]

theorem Delete_buckets_of_error (env : Env) (js : JetStream) (b k : String) (e : Error)
    (h : (JetStream.Delete env js b k).1 = some e) :
    (JetStream.Delete env js b k).2.buckets = js.buckets := by
  revert h
  unfold JetStream.Delete
  repeat' split
  all_goals simp_all [JetStream.record]

theorem Delete_entry_of_error (env : Env) (js : JetStream) (b k b' k' : String) (e : Error)
    (h : (JetStream.Delete env js b k).1 = some e) :
    (JetStream.Delete env js b k).2.entry b' k' = js.entry b' k' := by
  simp [JetStream.entry, Delete_buckets_of_error env js b k e h]

theorem Delete_entry_of_ok (env : Env) (js : JetStream) (b k b' k' : String)
    (h : (JetStream.Delete env js b k).1 = none) :
    (JetStream.Delete env js b k).2.entry b' k' =
      if b = b' ∧ k = k' then none else js.entry b' k' := by
  obtain ⟨kv, hkv, hb⟩ := Delete_ok env js b k h
  by_cases hbb : b = b'
  · subst hbb
    simp [JetStream.entry, hb, mapGet_mapSet_self, mapGet_mapDelete, hkv]
  · simp [JetStream.entry, hb, mapGet_mapSet_ne _ _ hbb, hbb]

theorem Put_entry_of_ok (env : Env) (js : JetStream) (b k b' k' : String) (v : Bytes)
    (h : (JetStream.Put env js b k v).1 = none) :
    (JetStream.Put env js b k v).2.entry b' k' =
      if b = b' ∧ k = k' then some v else js.entry b' k' := by
  obtain ⟨kv, hkv, hb⟩ := Put_ok env js b k v h
  by_cases hbb : b = b'
  · subst hbb
    simp [JetStream.entry, hb, mapGet_mapSet_self, mapGet_mapSet, hkv]
  · simp [JetStream.entry, hb, mapGet_mapSet_ne _ _ hbb, hbb]

/-- C4 (delete path of Save). For a record whose `MaxAge` is at most 0, `Save`
makes no `kv.Put` (whatever it returns), and no entry of any bucket is new;
when it returns nil, the bucket has no entry under the record's identifier and
exactly one cookie was appended to the response writer: the one of the session
name with an empty value and the record's options. -/
theorem Save_delete_path (env : Env) (s : NATSSessionStore) (σ : World) (w : List Cookie)
    (session : Session) (options : Options)
    (hopt : σ.heap.get? session.Options = some options) (hle : options.MaxAge ≤ 0) :
    putsOf (Save env s σ w session).world.js.trace = putsOf σ.js.trace ∧
    (∀ b k data, (Save env s σ w session).world.js.entry b k = some data →
      σ.js.entry b k = some data) ∧
    ((Save env s σ w session).ret = .nil →
      (Save env s σ w session).world.js.entry s.bucket session.ID = none ∧
      (Save env s σ w session).w = w ++ [NewCookie session.name "" options]) := by
  unfold Save
  simp only [hopt, hle, if_true]
  repeat' (first | split | dsimp only)
  all_goals try simp only [Prod.ext_iff] at *
  all_goals try casesm* _ ∧ _
  all_goals subst_vars
  · simp [KeyValue_trace, KeyValue_entry, putsOf, KVCall.isPut]
  · rename_i e _ he
    simp [KeyValue_trace, Delete_trace, KeyValue_entry, Delete_entry_of_error _ _ _ _ _ _ e he,
      putsOf, KVCall.isPut]
  · rename_i _ hd
    simp only [Delete_entry_of_ok _ _ _ _ _ _ hd, KeyValue_entry, NATSSessionStore.bucket]
    simp [KeyValue_trace, Delete_trace, putsOf, KVCall.isPut]

/-- Witness for C4: logging out the stored session `u-1` returns nil, makes no
put, removes the entry and appends the clearing cookie. -/
theorem Save_delete_path_witness :
    (Save demoEnv demoStore logoutWorld [] logoutSession).ret = .nil ∧
    putsOf (Save demoEnv demoStore logoutWorld [] logoutSession).world.js.trace = [] ∧
    (Save demoEnv demoStore logoutWorld [] logoutSession).world.js.entry "app_sessions" "u-1"
      = none ∧
    (Save demoEnv demoStore logoutWorld [] logoutSession).w
      = [{ Name := "sid", Value := "", Path := "/", Domain := "", MaxAge := 0,
           Secure := false, HttpOnly := false }] :=
  have h := Save_delete_path demoEnv demoStore logoutWorld [] logoutSession
    { Path := "/", Domain := "", MaxAge := 0, Secure := false, HttpOnly := false }
    (by decide) (by decide)
  ⟨by decide, h.1, (h.2.2 (by decide)).1, (h.2.2 (by decide)).2⟩

theorem Save_delete_of_ok (env : Env) (s : NATSSessionStore) (σ : World) (w : List Cookie)
    (session : Session) (options : Options)
    (hopt : σ.heap.get? session.Options = some options) (hle : options.MaxAge ≤ 0)
    (hk : (JetStream.KeyValue env σ.js s.bucket).1 = none)
    (hd : (JetStream.Delete env (JetStream.KeyValue env σ.js s.bucket).2 s.bucket
            session.ID).1 = none) :
    Save env s σ w session =
      ⟨.nil, session,
        { σ with js := (JetStream.Delete env (JetStream.KeyValue env σ.js s.bucket).2 s.bucket
                          session.ID).2 },
        w ++ [NewCookie session.name "" options]⟩ := by
  unfold NATSSessionStore.bucket at hk hd ⊢
  unfold Save
  simp only [hopt, hle, if_true]
  repeat' (first | split | dsimp only)
  all_goals try simp only [Prod.ext_iff] at *
  all_goals try casesm* _ ∧ _
  all_goals subst_vars
  all_goals simp_all

theorem Save_delete_ok (env : Env) (s : NATSSessionStore) (σ : World) (w : List Cookie)
    (session : Session) (options : Options)
    (hopt : σ.heap.get? session.Options = some options) (hle : options.MaxAge ≤ 0)
    (h : (Save env s σ w session).ret = .nil) :
    (JetStream.KeyValue env σ.js s.bucket).1 = none ∧
    (JetStream.Delete env (JetStream.KeyValue env σ.js s.bucket).2 s.bucket
        session.ID).1 = none := by
  revert h
  unfold NATSSessionStore.bucket
  unfold Save
  simp only [hopt, hle, if_true]
  repeat' (first | split | dsimp only)
  all_goals try simp only [Prod.ext_iff] at *
  all_goals try casesm* _ ∧ _
  all_goals subst_vars
  all_goals simp_all

theorem Save_delete_twice (env : Env) (s : NATSSessionStore) (σ : World)
    (w w2 : List Cookie) (session : Session) (options : Options)
    (hopt : σ.heap.get? session.Options = some options) (hle : options.MaxAge ≤ 0)
    (hbucket : ∀ js, env.fault js (.keyValue s.bucket) = none)
    (hdel : ∀ js k, js.entry s.bucket k = none → env.fault js (.delete s.bucket k) = none)
    (hfirst : (Save env s σ w session).ret = .nil) :
    (Save env s (Save env s σ w session).world w2 (Save env s σ w session).session).ret
      = .nil ∧
    (Save env s (Save env s σ w session).world w2
      (Save env s σ w session).session).world.js.buckets
      = (Save env s σ w session).world.js.buckets ∧
    (Save env s σ w session).w = w ++ [NewCookie session.name "" options] ∧
    (Save env s (Save env s σ w session).world w2 (Save env s σ w session).session).w
      = w2 ++ [NewCookie session.name "" options] := by
  obtain ⟨hk, hd⟩ := Save_delete_ok env s σ w session options hopt hle hfirst
  rw [Save_delete_of_ok env s σ w session options hopt hle hk hd]
  dsimp only
  obtain ⟨kv, hkv, hb⟩ := Delete_ok _ _ _ _ hd
  set js1 := (JetStream.Delete env (JetStream.KeyValue env σ.js s.bucket).2 s.bucket
    session.ID).2 with hjs1
  have hk2 : (JetStream.KeyValue env js1 s.bucket).1 = none :=
    KeyValue_ok_of env js1 s.bucket (hbucket js1) (by rw [hb, mapGet_mapSet_self])
  have hentry : (JetStream.KeyValue env js1 s.bucket).2.entry s.bucket session.ID = none := by
    rw [KeyValue_entry, hjs1, Delete_entry_of_ok _ _ _ _ _ _ hd]
    simp
  have hd2 : (JetStream.Delete env (JetStream.KeyValue env js1 s.bucket).2 s.bucket
      session.ID).1 = none :=
    Delete_ok_of env _ s.bucket session.ID (hdel _ _ hentry)
      (by rw [KeyValue_buckets, hb, mapGet_mapSet_self])
  have hsecond := Save_delete_of_ok env s { σ with js := js1 } w2 session options hopt hle hk2 hd2
  rw [hsecond]
  refine ⟨rfl, ?_, rfl, rfl⟩
  dsimp only
  obtain ⟨kv2, hkv2, hb2⟩ := Delete_ok _ _ _ _ hd2
  rw [hb2]
  rw [KeyValue_buckets, hb, mapGet_mapSet_self] at hkv2
  cases hkv2
  rw [KeyValue_buckets, hb, mapSet_mapSet, mapDelete_mapDelete]

/-- C10 (idempotent delete). Over a service whose bucket lookup never fails
and whose delete does not fail on a key that has no entry, for a record whose
`MaxAge` is at most 0: when a first `Save` has returned nil, a second `Save` of
the record it left returns nil too, leaves the buckets exactly as the first
did, and hands the same cookie to its response writer as the first did. The
first `Save` does return nil when the bucket exists and the delete does not
fail on the record's identifier. -/
theorem Save_delete_idempotent (env : Env) (s : NATSSessionStore) (σ : World)
    (w w2 : List Cookie) (session : Session) (options : Options)
    (hopt : σ.heap.get? session.Options = some options) (hle : options.MaxAge ≤ 0)
    (hbucket : ∀ js, env.fault js (.keyValue s.bucket) = none)
    (hdel : ∀ js k, js.entry s.bucket k = none → env.fault js (.delete s.bucket k) = none) :
    ((Save env s σ w session).ret = .nil →
      (Save env s (Save env s σ w session).world w2 (Save env s σ w session).session).ret
        = .nil ∧
      (Save env s (Save env s σ w session).world w2
        (Save env s σ w session).session).world.js.buckets
        = (Save env s σ w session).world.js.buckets ∧
      (Save env s σ w session).w = w ++ [NewCookie session.name "" options] ∧
      (Save env s (Save env s σ w session).world w2 (Save env s σ w session).session).w
        = w2 ++ [NewCookie session.name "" options]) ∧
    ((∃ kv, mapGet σ.js.buckets s.bucket = some kv) →
      (∀ js, env.fault js (.delete s.bucket session.ID) = none) →
      (Save env s σ w session).ret = .nil) := by
  refine ⟨Save_delete_twice env s σ w w2 session options hopt hle hbucket hdel, ?_⟩
  rintro ⟨kv, hkv⟩ hnofault
  have hk : (JetStream.KeyValue env σ.js s.bucket).1 = none :=
    KeyValue_ok_of env σ.js s.bucket (hbucket _) hkv
  have hd : (JetStream.Delete env (JetStream.KeyValue env σ.js s.bucket).2 s.bucket
      session.ID).1 = none :=
    Delete_ok_of env _ s.bucket session.ID (hnofault _) (by rw [KeyValue_buckets]; exact hkv)
  rw [Save_delete_of_ok env s σ w session options hopt hle hk hd]

/-- Witness for C10: logging out the stored session `u-1` twice. -/
theorem Save_delete_idempotent_witness :
    (Save demoEnv demoStore logoutWorld [] logoutSession).ret = .nil ∧
    (Save demoEnv demoStore (Save demoEnv demoStore logoutWorld [] logoutSession).world []
      (Save demoEnv demoStore logoutWorld [] logoutSession).session).ret = .nil :=
  ⟨by decide,
    ((Save_delete_idempotent demoEnv demoStore logoutWorld [] [] logoutSession
      { Path := "/", Domain := "", MaxAge := 0, Secure := false, HttpOnly := false }
      (by decide) (by decide) (fun _ => rfl) (fun _ _ _ => rfl)).1 (by decide)).1⟩

/-! ## The persisting path of Save and the identifier -/

theorem ite_generate_fst (env : Env) (σ : World) (c : Prop) [Decidable c] (x : String) :
    (if c then generateSessionID env σ else (x, σ)).1 = if c then env.uuid σ.uuids else x := by
  split <;> rfl

theorem Save_persist_ok (env : Env) (s : NATSSessionStore) (σ : World) (w : List Cookie)
    (session : Session) (options : Options)
    (hopt : σ.heap.get? session.Options = some options) (hpos : 0 < options.MaxAge)
    (h : (Save env s σ w session).ret = .nil) :
    (Save env s σ w session).session =
      { session with ID := if session.ID = "" then env.uuid σ.uuids else session.ID } ∧
    (Save env s σ w session).world.heap = σ.heap ∧
    ∃ values data token,
      collectValues [] session.Values = some values ∧
      env.jsonMarshal values = .ok data ∧
      (JetStream.KeyValue env σ.js s.bucket).1 = none ∧
      (JetStream.Put env (JetStream.KeyValue env σ.js s.bucket).2 s.bucket
        (Save env s σ w session).session.ID data).1 = none ∧
      (Save env s σ w session).world.js =
        (JetStream.Put env (JetStream.KeyValue env σ.js s.bucket).2 s.bucket
          (Save env s σ w session).session.ID data).2 ∧
      env.EncodeMulti session.name (Save env s σ w session).session.ID s.Codecs = .ok token ∧
      (Save env s σ w session).w = w ++ [NewCookie session.name token options] := by
  revert h
  unfold NATSSessionStore.bucket
  unfold Save
  simp only [hopt, not_le.mpr hpos, if_false]
  repeat' (first | split | dsimp only)
  all_goals try simp only [Prod.ext_iff] at *
  all_goals try casesm* _ ∧ _
  all_goals subst_vars
  all_goals simp_all [ite_generate_js, ite_generate_heap, ite_generate_fst, generateSessionID]

theorem Save_identifier (env : Env) (s : NATSSessionStore) (σ : World) (w : List Cookie)
    (session : Session) :
    ((Save env s σ w session).session.ID = session.ID ∧
      (Save env s σ w session).world.uuids = σ.uuids) ∨
    (session.ID = "" ∧ (Save env s σ w session).session.ID = env.uuid σ.uuids ∧
      (Save env s σ w session).world.uuids = σ.uuids + 1 ∧
      ∃ options, σ.heap.get? session.Options = some options ∧ 0 < options.MaxAge) := by
  unfold Save
  repeat' (first | split | dsimp only)
  all_goals try simp only [Prod.ext_iff] at *
  all_goals try casesm* _ ∧ _
  all_goals subst_vars
  all_goals by_cases hid : session.ID = ""
  all_goals simp_all [generateSessionID]

theorem Save_puts (env : Env) (s : NATSSessionStore) (σ : World) (w : List Cookie)
    (session : Session) :
    ∀ ev ∈ (Save env s σ w session).world.js.trace.drop σ.js.trace.length,
      ∀ b k v, ev.call = .put b k v →
        b = s.bucket ∧ k = (Save env s σ w session).session.ID := by
  unfold NATSSessionStore.bucket
  unfold Save
  repeat' (first | split | dsimp only)
  all_goals try simp only [Prod.ext_iff] at *
  all_goals try casesm* _ ∧ _
  all_goals subst_vars
  all_goals simp_all [KeyValue_trace, Put_trace, Delete_trace, ite_generate_js]

/-- C9 (identifier stability). A record whose identifier is non-empty keeps it
through `Save`, on either path and whatever `Save` returns, and no identifier
is drawn; `Load` never changes the identifier. `Save` changes the identifier,
or draws one, only when the identifier is empty and `MaxAge` is positive. Every
`kv.Put` that `Save` makes is on the store's bucket under the identifier the
record has afterwards, and when `Save` returns nil with a positive `MaxAge`
the payload was put under that identifier and the emitted cookie carries the
token sealed from that same identifier. -/
theorem identifier_stability (env : Env) (s : NATSSessionStore) (σ : World)
    (w : List Cookie) (session : Session) :
    (session.ID ≠ "" →
      (Save env s σ w session).session.ID = session.ID ∧
      (Save env s σ w session).world.uuids = σ.uuids) ∧
    (Load env s σ session).session.ID = session.ID ∧
    (((Save env s σ w session).session.ID ≠ session.ID ∨
        (Save env s σ w session).world.uuids ≠ σ.uuids) →
      session.ID = "" ∧
      ∃ options, σ.heap.get? session.Options = some options ∧ 0 < options.MaxAge) ∧
    (∀ ev ∈ (Save env s σ w session).world.js.trace.drop σ.js.trace.length,
      ∀ b k v, ev.call = .put b k v →
        b = s.bucket ∧ k = (Save env s σ w session).session.ID) ∧
    (∀ options, σ.heap.get? session.Options = some options → 0 < options.MaxAge →
      (Save env s σ w session).ret = .nil →
      ∃ data token,
        (⟨.put s.bucket (Save env s σ w session).session.ID data, none⟩ : KVEvent) ∈
          (Save env s σ w session).world.js.trace.drop σ.js.trace.length ∧
        env.EncodeMulti session.name (Save env s σ w session).session.ID s.Codecs
          = .ok token ∧
        (Save env s σ w session).w = w ++ [NewCookie session.name token options]) := by
  refine ⟨?_, (Load_session_fields env s σ session).1, ?_, Save_puts env s σ w session, ?_⟩
  · intro hne
    rcases Save_identifier env s σ w session with h | h
    · exact h
    · exact absurd h.1 hne
  · intro hch
    rcases Save_identifier env s σ w session with h | h
    · rcases hch with hch | hch
      · exact absurd h.1 hch
      · exact absurd h.2 hch
    · exact ⟨h.1, h.2.2.2⟩
  · intro options hopt hpos hnil
    obtain ⟨_, _, values, data, token, _, _, _, hput, hjs, henc, hw⟩ :=
      Save_persist_ok env s σ w session options hopt hpos hnil
    refine ⟨data, token, ?_, henc, hw⟩
    rw [hjs, Put_trace, KeyValue_trace, hput]
    simp

/-- Witness for C9: saving the fresh record draws the identifier `u-1`, puts
the payload under it and seals it into the cookie; saving the loaded record
`u-1` on the delete path keeps its identifier. -/
theorem identifier_stability_witness :
    (Save demoEnv demoStore demoWorld [] demoSession).session.ID = "u-1" ∧
    (Save demoEnv demoStore logoutWorld [] logoutSession).session.ID = "u-1" ∧
    (∃ data token,
      (⟨.put "app_sessions" "u-1" data, none⟩ : KVEvent) ∈
        (Save demoEnv demoStore demoWorld [] demoSession).world.js.trace.drop 0 ∧
      demoEnv.EncodeMulti "sid" "u-1" [] = .ok token ∧
      (Save demoEnv demoStore demoWorld [] demoSession).w =
        [] ++ [NewCookie "sid" token
          { Path := "/", Domain := "", MaxAge := 2592000, Secure := false,
            HttpOnly := false }]) :=
  ⟨by decide,
    ((identifier_stability demoEnv demoStore logoutWorld [] logoutSession).1 (by decide)).1,
    (identifier_stability demoEnv demoStore demoWorld [] demoSession).2.2.2.2 _
      (by decide) (by decide) (by decide)⟩

/-! ## Round trip -/

section Maps
variable {K V : Type} [DecidableEq K]

theorem keys_mapSet (m : List (K × V)) (k : K) (v : V) :
    (mapSet m k v).map Prod.fst =
      if k ∈ m.map Prod.fst then m.map Prod.fst else m.map Prod.fst ++ [k] := by
  induction m with
  | nil => simp [mapSet]
  | cons e m ih =>
    obtain ⟨k₀, v₀⟩ := e
    by_cases h₀ : k₀ = k
    · subst h₀; simp [mapSet]
    · have h₁ : ¬ k = k₀ := fun h => h₀ h.symm
      simp only [mapSet, h₀, if_false, List.map_cons, ih, List.mem_cons, h₁, false_or]
      split_ifs <;> simp

theorem keysDistinct_mapSet (m : List (K × V)) (k : K) (v : V) (h : keysDistinct m) :
    keysDistinct (mapSet m k v) := by
  unfold keysDistinct at h ⊢
  rw [keys_mapSet]
  split_ifs with hk
  · exact h
  · rw [List.nodup_append]
    refine ⟨h, by simp, ?_⟩
    intro a ha hb
    simp at hb
    subst hb
    exact hk ha

end Maps

theorem collectValues_get (l : List (GoKey × GoValue)) :
    ∀ (acc m : List (String × String)), collectValues acc l = some m → keysDistinct l →
      ∀ k, (mapGet m k).map GoValue.str =
        match mapGet l (GoKey.str k) with
        | some v => some v
        | none => (mapGet acc k).map GoValue.str := by
  induction l with
  | nil =>
    intro acc m h _ k
    simp [collectValues] at h
    simp [mapGet, h]
  | cons e l ih =>
    intro acc m h hd k
    obtain ⟨key, v⟩ := e
    have hd' : keysDistinct l := by
      unfold keysDistinct at hd ⊢
      simp at hd
      exact hd.2
    have hnot : key ∉ l.map Prod.fst := by
      unfold keysDistinct at hd
      simp at hd
      simpa using hd.1
    cases key with
    | str key =>
      cases v with
      | str v =>
        simp only [collectValues] at h
        have := ih _ _ h hd' k
        rw [this]
        by_cases hk : key = k
        · subst hk
          simp [mapGet, mapGet_eq_none_of_not_mem l _ hnot, mapGet_mapSet_self]
        · have hk' : ¬ GoKey.str key = GoKey.str k := by simpa using hk
          simp [mapGet, hk', mapGet_mapSet_ne _ _ hk]
      | _ => simp [collectValues] at h
    | int n =>
      simp only [collectValues] at h
      simpa [mapGet] using ih _ _ h hd' k
    | bool b =>
      simp only [collectValues] at h
      simpa [mapGet] using ih _ _ h hd' k

theorem collectValues_keysDistinct (l : List (GoKey × GoValue)) :
    ∀ (acc m : List (String × String)), collectValues acc l = some m → keysDistinct acc →
      keysDistinct m := by
  induction l with
  | nil =>
    intro acc m h hacc
    simp [collectValues] at h
    exact h ▸ hacc
  | cons e l ih =>
    intro acc m h hacc
    obtain ⟨key, v⟩ := e
    cases key with
    | str key =>
      cases v with
      | str v =>
        simp only [collectValues] at h
        exact ih _ _ h (keysDistinct_mapSet _ _ _ hacc)
      | _ => simp [collectValues] at h
    | int n =>
      simp only [collectValues] at h
      exact ih _ _ h hacc
    | bool b =>
      simp only [collectValues] at h
      exact ih _ _ h hacc

theorem mergeValues_get (values : List (String × GoValue)) :
    ∀ (dst : List (GoKey × GoValue)), keysDistinct values →
      ∀ key, mapGet (mergeValues dst values) key =
        match key with
        | .str k =>
          (match mapGet values k with
           | some v => some v
           | none => mapGet dst (.str k))
        | other => mapGet dst other := by
  induction values with
  | nil =>
    intro dst _ key
    cases key <;> simp [mergeValues, mapGet]
  | cons e values ih =>
    intro dst hd key
    obtain ⟨k₀, v₀⟩ := e
    have hd' : keysDistinct values := by
      unfold keysDistinct at hd ⊢
      simp at hd
      exact hd.2
    have hnot : k₀ ∉ values.map Prod.fst := by
      unfold keysDistinct at hd
      simp at hd
      simpa using hd.1
    simp only [mergeValues]
    rw [ih _ hd']
    cases key with
    | str k =>
      by_cases hk : k₀ = k
      · subst hk
        simp [mapGet, mapGet_eq_none_of_not_mem values _ hnot, mapGet_mapSet_self]
      · have hk' : ¬ GoKey.str k₀ = GoKey.str k := by simpa using hk
        simp [mapGet, hk, mapGet_mapSet_ne _ _ hk']
    | int n => simp [mapGet_mapSet_ne]
    | bool b => simp [mapGet_mapSet_ne]

theorem mergeValues_keysDistinct (values : List (String × GoValue)) :
    ∀ (dst : List (GoKey × GoValue)), keysDistinct dst →
      keysDistinct (mergeValues dst values) := by
  induction values with
  | nil => intro dst h; simpa [mergeValues] using h
  | cons e values ih =>
    intro dst h
    obtain ⟨k₀, v₀⟩ := e
    simp only [mergeValues]
    exact ih _ (keysDistinct_mapSet _ _ _ h)

theorem Load_ok_of (env : Env) (s : NATSSessionStore) (σ : World) (session : Session)
    (data : Bytes) (values : List (String × GoValue))
    (hk : (JetStream.KeyValue env σ.js s.bucket).1 = none)
    (hg : (JetStream.Get env (JetStream.KeyValue env σ.js s.bucket).2 s.bucket
            session.ID).1 = .ok data)
    (hu : env.jsonUnmarshal data = .ok values) :
    (Load env s σ session).err = none ∧
    (Load env s σ session).session =
      { session with Values := mergeValues session.Values values } := by
  unfold NATSSessionStore.bucket at hk hg
  unfold Load
  repeat' (first | split | dsimp only)
  all_goals try simp only [Prod.ext_iff] at *
  all_goals try casesm* _ ∧ _
  all_goals subst_vars
  all_goals simp_all

theorem New_of_Load_ok (env : Env) (s : NATSSessionStore) (σ : World) (r : Request)
    (name c id : String) (hc : r.Cookie name = some c)
    (hd : env.DecodeMulti name c s.Codecs = .ok id)
    (hl : (Load env s σ { NewSession s name with ID := id }).err = none) :
    (New env s σ r name).session =
      { (Load env s σ { NewSession s name with ID := id }).session with IsNew := false } := by
  unfold New
  simp only [hc, hd]
  simp only [NewSession] at hl ⊢
  simp [hl]

theorem New_of_Load_error (env : Env) (s : NATSSessionStore) (σ : World) (r : Request)
    (name c id : String) (hc : r.Cookie name = some c)
    (hd : env.DecodeMulti name c s.Codecs = .ok id)
    (hl : (Load env s σ { NewSession s name with ID := id }).err ≠ none) :
    (New env s σ r name).session = { NewSession s name with ID := id } := by
  have hs := Load_error_session env s σ _ hl
  unfold New
  simp only [hc, hd]
  simp only [NewSession] at hl hs ⊢
  split
  · rename_i h
    exact absurd h hl
  · simp [hs]

theorem demoEnv_codecRoundTrip : demoEnv.codecRoundTrip := by
  intro name id codecs token h
  simp only [demoEnv, demoEncode, Except.ok.injEq] at h
  subst h
  simp [demoEnv, demoDecode]

theorem demoEnv_jsonRoundTrip : demoEnv.jsonRoundTrip := by
  intro m data _ h
  simp only [demoEnv, demoMarshal] at h
  split_ifs at h with h1 h2
  · cases h
    subst h1
    refine ⟨[("cart", .str "3")], rfl, by decide, ?_⟩
    intro k
    simp only [mapGet]
    split_ifs <;> rfl
  · cases h
    subst h2
    exact ⟨[], rfl, by decide, fun k => rfl⟩

theorem demoEnv_noFaults : demoEnv.noFaults := fun _ _ => rfl

/-- C3 (save/reload round trip with value filtering). Over a codec that
unseals what it sealed, a JSON library that reads back what it wrote and a
service that fails no call: when `Save` of a record with a positive `MaxAge`
returns nil (which it only does when every string key of `Values` holds a
string), `New` on a request that carries the cookie `Save` emitted returns a
record with `IsNew = false`, the identifier the saved record has, and `Values`
that bind each string key exactly as the saved mapping did and bind no other
key. -/
theorem Save_New_round_trip (env : Env) (s : NATSSessionStore) (σ : World)
    (w : List Cookie) (session : Session) (options : Options) (r : Request)
    (hcodec : env.codecRoundTrip) (hjson : env.jsonRoundTrip) (hback : env.noFaults)
    (hopt : σ.heap.get? session.Options = some options) (hpos : 0 < options.MaxAge)
    (hmap : keysDistinct session.Values)
    (hsave : (Save env s σ w session).ret = .nil)
    (hreq : ∃ c, (Save env s σ w session).w = w ++ [c] ∧ r.Cookie c.Name = some c.Value) :
    (New env s (Save env s σ w session).world r session.name).session.IsNew = false ∧
    (New env s (Save env s σ w session).world r session.name).session.ID
      = (Save env s σ w session).session.ID ∧
    keysDistinct (New env s (Save env s σ w session).world r session.name).session.Values ∧
    ∀ key, mapGet (New env s (Save env s σ w session).world r session.name).session.Values key
      = match key with
        | .str k => mapGet session.Values (.str k)
        | _ => none := by
  obtain ⟨hsess, hheap, values, data, token, hcv, hjm, hkv, hput, hjs, henc, hw⟩ :=
    Save_persist_ok env s σ w session options hopt hpos hsave
  obtain ⟨c, hc, hcookie⟩ := hreq
  rw [hw] at hc
  have hc' : c = NewCookie session.name token options := by simpa using hc.symm
  subst hc'
  simp only [NewCookie] at hcookie
  have hdec := hcodec _ _ _ _ henc
  obtain ⟨dec, hun, hdd, hget⟩ :=
    hjson values data (collectValues_keysDistinct _ _ _ hcv (by simp [keysDistinct])) hjm
  set id := (Save env s σ w session).session.ID with hid
  set σ' := (Save env s σ w session).world with hσ'
  obtain ⟨kv, hkvb, hb⟩ := Put_ok _ _ _ _ _ hput
  have hk2 : (JetStream.KeyValue env σ'.js s.bucket).1 = none :=
    KeyValue_ok_of env σ'.js s.bucket (hback _ _) (by rw [hjs, hb, mapGet_mapSet_self])
  have hg2 : (JetStream.Get env (JetStream.KeyValue env σ'.js s.bucket).2 s.bucket id).1
      = .ok data := by
    apply Get_ok_of _ _ _ _ _ (hback _ _)
    rw [KeyValue_entry, hjs, Put_entry_of_ok _ _ _ _ _ _ _ hput]
    simp
  obtain ⟨hlerr, hlsess⟩ :=
    Load_ok_of env s σ' { NewSession s session.name with ID := id } data dec hk2 hg2 hun
  have hnew := New_of_Load_ok env s σ' r session.name token id hcookie hdec hlerr
  rw [hnew, hlsess]
  refine ⟨rfl, rfl, ?_, ?_⟩
  · exact mergeValues_keysDistinct _ _ (by simp [NewSession, keysDistinct])
  · intro key
    simp only [NewSession]
    rw [mergeValues_get dec [] hdd key]
    cases key with
    | str k =>
      simp only [hget, mapGet]
      have := collectValues_get session.Values [] values hcv hmap k
      rw [this]
      cases mapGet session.Values (GoKey.str k) <;> simp [mapGet]
    | int n => simp [mapGet]
    | bool b => simp [mapGet]

/-- Witness for C3: the fresh record with one string-keyed and one int-keyed
entry is saved under `u-1`; a request presenting the emitted cookie gets back
the record `u-1` holding the string-keyed entry only. -/
theorem Save_New_round_trip_witness :
    (New demoEnv demoStore (Save demoEnv demoStore demoWorld [] demoSession).world
      ⟨[("sid", "sc:u-1")]⟩ "sid").session.IsNew = false ∧
    (New demoEnv demoStore (Save demoEnv demoStore demoWorld [] demoSession).world
      ⟨[("sid", "sc:u-1")]⟩ "sid").session.ID = "u-1" ∧
    mapGet (New demoEnv demoStore (Save demoEnv demoStore demoWorld [] demoSession).world
      ⟨[("sid", "sc:u-1")]⟩ "sid").session.Values (.str "cart") = some (.str "3") ∧
    mapGet (New demoEnv demoStore (Save demoEnv demoStore demoWorld [] demoSession).world
      ⟨[("sid", "sc:u-1")]⟩ "sid").session.Values (.int 7) = none :=
  have h := Save_New_round_trip demoEnv demoStore demoWorld [] demoSession
    { Path := "/", Domain := "", MaxAge := 2592000, Secure := false, HttpOnly := false }
    ⟨[("sid", "sc:u-1")]⟩ demoEnv_codecRoundTrip demoEnv_jsonRoundTrip demoEnv_noFaults
    (by decide) (by decide) (by decide) (by decide)
    ⟨{ Name := "sid", Value := "sc:u-1", Path := "/", Domain := "", MaxAge := 2592000,
       Secure := false, HttpOnly := false }, by decide, by decide⟩
  ⟨h.1, h.2.1, h.2.2.2 (.str "cart"), h.2.2.2 (.int 7)⟩

/-! ## Values that are not strings -/

theorem collectValues_none_of_mem (l : List (GoKey × GoValue)) (k : String) (v : GoValue)
    (hmem : (GoKey.str k, v) ∈ l) (hv : ∀ x, v ≠ .str x) :
    ∀ acc, collectValues acc l = none := by
  induction l with
  | nil => simp at hmem
  | cons e l ih =>
    intro acc
    obtain ⟨key, val⟩ := e
    rcases List.mem_cons.mp hmem with h | h
    · cases h
      cases v <;> first | rfl | exact absurd rfl (hv _)
    · cases key with
      | str key =>
        cases val with
        | str x => simpa [collectValues] using ih h _
        | _ => rfl
      | int n => simpa [collectValues] using ih h _
      | bool b => simpa [collectValues] using ih h _

/-- On the persisting path, a record that holds a value that is not a string
under a string key is never saved: `Save` does not return nil (it returns the
error of the bucket lookup, or panics in the type assertion), makes no put
and writes no cookie. -/
theorem Save_non_string_value (env : Env) (s : NATSSessionStore) (σ : World)
    (w : List Cookie) (session : Session) (options : Options) (k : String) (v : GoValue)
    (hopt : σ.heap.get? session.Options = some options) (hpos : 0 < options.MaxAge)
    (hmem : (GoKey.str k, v) ∈ session.Values) (hv : ∀ x, v ≠ .str x) :
    (Save env s σ w session).ret ≠ .nil ∧
    ((JetStream.KeyValue env σ.js s.bucket).1 = none →
      (Save env s σ w session).ret
        = .panic "interface conversion: interface {} is not string") ∧
    putsOf (Save env s σ w session).world.js.trace = putsOf σ.js.trace ∧
    (Save env s σ w session).w = w := by
  have hc := collectValues_none_of_mem session.Values k v hmem hv []
  unfold NATSSessionStore.bucket
  unfold Save
  simp only [hopt, not_le.mpr hpos, if_false]
  repeat' (first | split | dsimp only)
  all_goals try simp only [Prod.ext_iff] at *
  all_goals try casesm* _ ∧ _
  all_goals subst_vars
  all_goals simp_all [ite_generate_js, KeyValue_trace, putsOf, KVCall.isPut, generateSessionID]

/-- C5 (persisted record format), evaluated at a record whose string key
`visits` holds the integer 3, with a 30-day `MaxAge`, over a service that
fails no call: `Save` does not complete, it panics in the type assertion
`v.(string)`; no put was made, the bucket is still empty and no cookie was
written. -/
theorem Save_number_value_panics :
    (Save demoEnv demoStore demoWorld [] numberSession).ret
      = .panic "interface conversion: interface {} is not string" ∧
    putsOf (Save demoEnv demoStore demoWorld [] numberSession).world.js.trace = [] ∧
    (Save demoEnv demoStore demoWorld [] numberSession).world.js.buckets
      = [("app_sessions", [])] ∧
    (Save demoEnv demoStore demoWorld [] numberSession).w = [] := by
  decide

/-! ## Fresh records -/

/-- C6, refuted as stated: the token of `ghostRequest` unseals to `ghost`,
`Load` of `ghost` fails (the bucket has no such key), and `New` returns a
record with `IsNew = true` whose identifier is `ghost`, not the empty
string. -/
theorem New_fresh_keeps_unsealed_identifier :
    demoEnv.DecodeMulti "sid" "sc:ghost" demoStore.Codecs = .ok "ghost" ∧
    (Load demoEnv demoStore demoWorld { NewSession demoStore "sid" with ID := "ghost" }).err
      = some "nats: key not found" ∧
    (New demoEnv demoStore demoWorld ghostRequest "sid").session.IsNew = true ∧
    (New demoEnv demoStore demoWorld ghostRequest "sid").session.ID = "ghost" ∧
    ¬ ((New demoEnv demoStore demoWorld ghostRequest "sid").session.IsNew = true ∧
       (New demoEnv demoStore demoWorld ghostRequest "sid").session.ID = "") :=
  ⟨rfl, by decide, by decide, by decide, by decide⟩

/-- C6, amended. Whenever `New` falls through on a failure the record it
returns has `IsNew = true`; its identifier is empty when the cookie is missing
or its value does not unseal, and it is the unsealed identifier when the value
unseals but `Load` of that identifier fails. -/
theorem New_fresh_identifier (env : Env) (s : NATSSessionStore) (σ : World) (r : Request)
    (name : String) :
    (r.Cookie name = none →
      (New env s σ r name).session.IsNew = true ∧ (New env s σ r name).session.ID = "") ∧
    (∀ c e, r.Cookie name = some c → env.DecodeMulti name c s.Codecs = .error e →
      (New env s σ r name).session.IsNew = true ∧ (New env s σ r name).session.ID = "") ∧
    (∀ c id, r.Cookie name = some c → env.DecodeMulti name c s.Codecs = .ok id →
      (Load env s σ { NewSession s name with ID := id }).err ≠ none →
      (New env s σ r name).session.IsNew = true ∧ (New env s σ r name).session.ID = id) := by
  refine ⟨?_, ?_, ?_⟩
  · intro hc
    simp [New, hc, NewSession]
  · intro c e hc hd
    simp [New, hc, hd, NewSession]
  · intro c id hc hd hl
    rw [New_of_Load_error env s σ r name c id hc hd hl]
    simp [NewSession]

/-- Witness for C6 amended: without a cookie the fresh record has no
identifier; with a token that unseals to `u-2`, whose stored payload does
not decode, the fresh record has the identifier `u-2`. -/
theorem New_fresh_identifier_witness :
    ((New demoEnv demoStore demoWorld plainRequest "sid").session.IsNew = true ∧
      (New demoEnv demoStore demoWorld plainRequest "sid").session.ID = "") ∧
    ((New demoEnv demoStore corruptWorld corruptRequest "sid").session.IsNew = true ∧
      (New demoEnv demoStore corruptWorld corruptRequest "sid").session.ID = "u-2") :=
  ⟨(New_fresh_identifier demoEnv demoStore demoWorld plainRequest "sid").1 (by decide),
    (New_fresh_identifier demoEnv demoStore corruptWorld corruptRequest "sid").2.2
      "sc:u-2" "u-2" (by decide) rfl (by decide)⟩

theorem Load_error_of_miss (env : Env) (s : NATSSessionStore) (σ : World) (session : Session)
    (h : σ.js.entry s.bucket session.ID = none ∨
      ∃ data e, σ.js.entry s.bucket session.ID = some data ∧
        env.jsonUnmarshal data = .error e) :
    (Load env s σ session).err ≠ none := by
  revert h
  unfold NATSSessionStore.bucket
  unfold Load
  repeat' (first | split | dsimp only)
  all_goals try simp only [Prod.ext_iff] at *
  all_goals try casesm* _ ∧ _
  all_goals subst_vars
  all_goals try simp
  rename_i data _ values hu _ hg
  have := Get_ok _ _ _ _ _ hg
  rw [KeyValue_entry] at this
  rw [this]
  refine ⟨by simp, ?_⟩
  intro x hx e he
  cases hx
  rw [he] at hu
  cases hu

/-- C8, refuted as stated: the token of `nullRequest` unseals to `u-3`, the
bucket holds the payload `null` under `u-3`, which is not a JSON object, yet
`json.Unmarshal` takes it without error, `Load` returns nil and `New` returns
a record with `IsNew = false` (and empty `Values`), not a fresh one. -/
theorem New_null_payload_not_fresh :
    nullEnv.DecodeMulti "sid" "sc:u-3" demoStore.Codecs = .ok "u-3" ∧
    nullWorld.js.entry demoStore.bucket "u-3" = some "null" ∧
    (Load nullEnv demoStore nullWorld { NewSession demoStore "sid" with ID := "u-3" }).err
      = none ∧
    (New nullEnv demoStore nullWorld nullRequest "sid").session.IsNew = false ∧
    (New nullEnv demoStore nullWorld nullRequest "sid").session.Values = [] ∧
    ¬ (New nullEnv demoStore nullWorld nullRequest "sid").session.IsNew = true :=
  ⟨rfl, by decide, by decide, by decide, rfl, by decide⟩

/-- C8, amended (fresh-on-miss). When the cookie of the session name unseals
to an identifier under which the bucket has no entry, or has an entry that
`json.Unmarshal` rejects with an error, `New` returns a record with
`IsNew = true` and empty `Values`; and a `Load` that fails leaves the `Values`
of its record (indeed the whole record) untouched. -/
theorem New_fresh_on_miss (env : Env) (s : NATSSessionStore) (σ : World) (r : Request)
    (name c id : String)
    (hc : r.Cookie name = some c) (hd : env.DecodeMulti name c s.Codecs = .ok id)
    (hmiss : σ.js.entry s.bucket id = none ∨
      ∃ data e, σ.js.entry s.bucket id = some data ∧ env.jsonUnmarshal data = .error e) :
    (New env s σ r name).session.IsNew = true ∧
    (New env s σ r name).session.Values = [] ∧
    ∀ (σ' : World) (session : Session), (Load env s σ' session).err ≠ none →
      (Load env s σ' session).session.Values = session.Values ∧
      (Load env s σ' session).session = session := by
  have hl : (Load env s σ { NewSession s name with ID := id }).err ≠ none :=
    Load_error_of_miss env s σ _ hmiss
  rw [New_of_Load_error env s σ r name c id hc hd hl]
  refine ⟨rfl, rfl, ?_⟩
  intro σ' session h
  rw [Load_error_session env s σ' session h]
  exact ⟨rfl, rfl⟩

/-- Witness for C8: a token that unseals to `ghost`, which the bucket does not
hold, yields a fresh record with empty values. -/
theorem New_fresh_on_miss_witness :
    (New demoEnv demoStore demoWorld ghostRequest "sid").session.IsNew = true ∧
    (New demoEnv demoStore demoWorld ghostRequest "sid").session.Values = [] :=
  have h := New_fresh_on_miss demoEnv demoStore demoWorld ghostRequest "sid" "sc:ghost"
    "ghost" (by decide) rfl (Or.inl (by decide))
  ⟨h.1, h.2.1⟩

/-! ## The default options -/

theorem Load_world_heap (env : Env) (s : NATSSessionStore) (σ : World) (session : Session) :
    (Load env s σ session).world.heap = σ.heap := by
  unfold Load
  repeat' (first | split | dsimp only)

theorem New_heap_Options (env : Env) (s : NATSSessionStore) (σ : World) (r : Request)
    (name : String) :
    (New env s σ r name).world.heap = σ.heap ∧
    (New env s σ r name).session.Options = s.defaultOptions := by
  unfold New
  repeat' (first | split | dsimp only)
  all_goals simp [NewSession, Load_world_heap, (Load_session_fields env s σ _).2.2.1]

theorem NewStore_ok (env : Env) (σ σ1 : World) (keyPrefix : String) (keyPairs : List Bytes)
    (store : NATSSessionStore) (h : NewStore env σ keyPrefix keyPairs = (.ok store, σ1)) :
    σ1.heap.get? store.defaultOptions =
      some { Path := "/", Domain := "", MaxAge := 86400 * 30, Secure := false,
             HttpOnly := false } := by
  revert h
  unfold NewStore
  repeat' (first | split | dsimp only)
  all_goals simp only [Prod.mk.injEq, Except.ok.injEq, reduceCtorEq, false_and, false_implies]
  all_goals rintro ⟨rfl, rfl⟩
  all_goals simp

/-- Until a handler writes through a record's `Options` pointer, every record
`New` returns on a store built by `NewStore` has `MaxAge` 2,592,000 and path
`/`; after the statement `session.Options.MaxAge = v` on one such record,
every record `New` returns on that store has `MaxAge` `v`. -/
theorem New_shares_default_options (env : Env) (σ σ1 : World) (keyPrefix : String)
    (keyPairs : List Bytes) (store : NATSSessionStore)
    (h : NewStore env σ keyPrefix keyPairs = (.ok store, σ1))
    (r r' : Request) (name name' : String) (v : Int) :
    (New env store σ1 r name).world.heap.get? (New env store σ1 r name).session.Options =
      some { Path := "/", Domain := "", MaxAge := 2592000, Secure := false,
             HttpOnly := false } ∧
    maxAge
      (New env store
        (setMaxAge (New env store σ1 r name).world (New env store σ1 r name).session v)
        r' name').world
      (New env store
        (setMaxAge (New env store σ1 r name).world (New env store σ1 r name).session v)
        r' name').session = some v := by
  have h0 := NewStore_ok env σ σ1 keyPrefix keyPairs store h
  obtain ⟨hh, ho⟩ := New_heap_Options env store σ1 r name
  refine ⟨by rw [hh, ho, h0]; rfl, ?_⟩
  obtain ⟨hh', ho'⟩ := New_heap_Options env store
    (setMaxAge (New env store σ1 r name).world (New env store σ1 r name).session v) r' name'
  unfold maxAge
  rw [hh', ho']
  unfold setMaxAge
  rw [hh, ho, h0]
  have hlt : store.defaultOptions < σ1.heap.length := by
    by_contra hge
    rw [List.get?_eq_none.mpr (not_lt.mp hge)] at h0
    cases h0
  simp [List.getElem?_set, hlt]

/-- C7 (default policy fixed after construction), evaluated: `NewStore` on
`emptyWorld` builds `demoStore`, and the first record `New` returns has
`MaxAge` 2,592,000 and path `/`; the handler sets that record's `MaxAge` to 0
through its `Options` pointer, which is the store's `defaultOptions` pointer;
the record `New` returns to a later request on the same store then has `MaxAge`
0, not 2,592,000, and the options at the store's `defaultOptions` have
`MaxAge` 0. -/
theorem New_after_override_loses_default :
    (NewStore demoEnv emptyWorld "app" []).1 = .ok demoStore ∧
    firstRecord.session.Options = demoStore.defaultOptions ∧
    firstRecord.world.heap.get? firstRecord.session.Options =
      some { Path := "/", Domain := "", MaxAge := 2592000, Secure := false,
             HttpOnly := false } ∧
    maxAge laterRecord.world laterRecord.session = some 0 ∧
    maxAge laterRecord.world laterRecord.session ≠ some 2592000 ∧
    laterRecord.world.heap.get? demoStore.defaultOptions =
      some { Path := "/", Domain := "", MaxAge := 0, Secure := false, HttpOnly := false } :=
  ⟨rfl, by decide, by decide, by decide, by decide, by decide⟩

end NatsStore
